import Mathlib

/-!
Verification of the terminal-mcp-server repository.

The development shallowly embeds the parts of the JavaScript sources that the
checked properties talk about:

* the marker-based command-completion protocol of
  src/terminal_mcp_new.js (TerminalSession.executeCommand) and of the
  persistent single-session variant (executeCommandInShell), whose event
  handlers are line-identical, as an explicit event machine (ExecState, stepNew);
* the polling variant of src/terminal_mcp.js (executeCommand with its
  checkOutput interval) as a second event machine (OldState, stepOld);
* the directory tracker updateWorkingDirectory together with the Node
  path.posix functions it calls (dirname, resolve, join) and the JavaScript
  string operations (trim, includes, replace);
* the TerminalManager session registry (createSession,
  cleanupInactiveSessions);
* the tool-dispatch boundaries of the three server variants.

JavaScript strings are modelled as Lean String (ASCII fragment: the whitespace
class and line terminators are restricted to their ASCII members, which covers
every string the sources construct).
-/

/-! ## JavaScript string primitives -/

/-- The ASCII members of the JavaScript whitespace class used by
String.prototype.trim and by the regex class backslash-s. -/
def jsWhitespace (c : Char) : Bool :=
  c = ' ' || c = '\t' || c = '\n' || c = '\r' || c = Char.ofNat 11 || c = Char.ofNat 12

/-- JavaScript String.prototype.trim: drop whitespace from both ends. -/
def jsTrim (s : String) : String :=
  ⟨((s.data.dropWhile jsWhitespace).reverse.dropWhile jsWhitespace).reverse⟩

/-- Substring containment on character lists. -/
def containsL (pat : List Char) : List Char → Bool
  | [] => pat.isEmpty
  | c :: rest => pat.isPrefixOf (c :: rest) || containsL pat rest

/-- JavaScript String.prototype.includes. -/
def jsIncludes (s pat : String) : Bool :=
  containsL pat.data s.data

/-- Replace every non-overlapping occurrence of pat (left to right) by the
empty string.  This is the effect of the sources code line
str.replace(new RegExp(marker, g-flag), empty): the markers contain only word
characters, so the regex matches exactly the literal marker text.
(The unreachable empty pattern is treated as matching nothing.) -/
def replaceAllL (pat : List Char) (s : List Char) : List Char :=
  match s with
  | [] => []
  | c :: rest =>
    if pat.isPrefixOf (c :: rest) ∧ pat ≠ [] then
      replaceAllL pat (rest.drop (pat.length - 1))
    else
      c :: replaceAllL pat rest
termination_by s.length
decreasing_by
  · simp [List.length_drop]
    omega
  · simp

/-- JavaScript str.replace(pattern, empty) with a RegExp pattern carrying the
g flag: every occurrence removed. -/
def jsReplaceAll (s pat : String) : String :=
  ⟨replaceAllL pat.data s.data⟩

/-- Remove the first occurrence of pat, if any. -/
def replaceFirstL (pat : List Char) (s : List Char) : List Char :=
  match s with
  | [] => []
  | c :: rest =>
    if pat.isPrefixOf (c :: rest) ∧ pat ≠ [] then
      rest.drop (pat.length - 1)
    else
      c :: replaceFirstL pat rest

/-- JavaScript str.replace(pattern, empty) with a plain string pattern:
only the FIRST occurrence is removed (this is what src/terminal_mcp.js line 96
does with output.replace(marker, empty)). -/
def jsReplaceFirst (s pat : String) : String :=
  ⟨replaceFirstL pat.data s.data⟩

/-! ## Completion markers

src/terminal_mcp_new.js lines 97-98 build the markers from the session id and
a timestamp; src/terminal_mcp.js line 84 builds its marker from the timestamp
alone. -/

def mkCompleteMarker (id ts : String) : String :=
  "__COMMAND_COMPLETE_" ++ id ++ "_" ++ ts ++ "__"

def mkErrorMarker (id ts : String) : String :=
  "__COMMAND_ERROR_" ++ id ++ "_" ++ ts ++ "__"

def mkOldMarker (ts : String) : String :=
  "__COMMAND_COMPLETE_" ++ ts ++ "__"

/-! ## Command outcomes -/

/-- The object passed to resolve by the executeCommand promises: success flag,
captured stdout and stderr, exit code, optional error message. -/
structure Outcome where
  success : Bool
  stdout : String
  stderr : String
  exitCode : Int
  error : Option String
deriving Repr, DecidableEq

/-! ## Event machine of TerminalSession.executeCommand
(src/terminal_mcp_new.js lines 78-142; the body of executeCommandInShell in
the persistent single-session variant, lines 63-129 of that file, is
line-identical in every modelled respect).

The mutable state captured by the promise closure: the stdout and stderr
accumulator variables, the completed flag, whether the timeout timer can still
fire (armed initially, disarmed by clearTimeout on marker detection or spent
by firing), whether the data listeners are still attached, and the list of
values passed to resolve.  processKilled records whether any handler killed
the shell process; no handler in executeCommand does. -/

structure ExecState where
  stdout : String
  stderr : String
  completed : Bool
  timerArmed : Bool
  outListenerOn : Bool
  errListenerOn : Bool
  processKilled : Bool
  resolutions : List Outcome
deriving Repr, DecidableEq

def initExecState : ExecState :=
  { stdout := "", stderr := "", completed := false, timerArmed := true,
    outListenerOn := true, errListenerOn := true, processKilled := false,
    resolutions := [] }

/-- Events delivered to the closure by the event loop: a chunk on the stdout
pipe, a chunk on the stderr pipe, or the timeout timer firing. -/
inductive Ev where
  | out (chunk : String)
  | err (chunk : String)
  | timeout
deriving Repr, DecidableEq

/-- The onData handler, src/terminal_mcp_new.js lines 100-123.  The chunk is
appended to the stdout accumulator, and the marker test is performed on the
INCREMENTAL chunk (line 104: output.includes(marker) where output is the lone
chunk just delivered), not on the accumulated buffer. -/
def onData (m em : String) (st : ExecState) (chunk : String) : ExecState :=
  let stdout1 := st.stdout ++ chunk
  if jsIncludes chunk m then
    if st.completed then
      { st with stdout := stdout1 }
    else
      let so := jsTrim (jsReplaceAll stdout1 m)
      let se := jsTrim (jsReplaceAll st.stderr em)
      { st with
        stdout := so, stderr := se, completed := true,
        timerArmed := false, outListenerOn := false, errListenerOn := false,
        resolutions := st.resolutions ++ [⟨true, so, se, 0, none⟩] }
  else
    { st with stdout := stdout1 }

/-- The timeout callback, src/terminal_mcp_new.js lines 83-94.  It resolves
with exit code -1 and an appended notice; it removes no listener and does not
kill the process. -/
def timeoutFire (st : ExecState) : ExecState :=
  if st.completed then
    { st with timerArmed := false }
  else
    { st with
      completed := true, timerArmed := false,
      resolutions := st.resolutions ++
        [⟨false, st.stdout, st.stderr ++ "\nCommand timed out", -1,
          some "Command timed out"⟩] }

/-- One event-loop step: listeners receive chunks only while attached, the
timer fires only while armed. -/
def stepNew (m em : String) (st : ExecState) : Ev → ExecState
  | .out c => if st.outListenerOn then onData m em st c else st
  | .err c => if st.errListenerOn then { st with stderr := st.stderr ++ c } else st
  | .timeout => if st.timerArmed then timeoutFire st else st

/-- Run one executeCommand call against a sequence of delivered events. -/
def runNew (m em : String) (evs : List Ev) : ExecState :=
  evs.foldl (stepNew m em) initExecState

/-! ## Event machine of the polling variant (src/terminal_mcp.js lines 47-111)

Here stdout and stderr arrive as buffer chunks pushed onto arrays, and marker
detection happens inside a 10 ms interval callback (checkOutput, lines 89-105)
that concatenates the ACCUMULATED chunks and searches them.  A second timer
(line 107) clears the interval at the deadline.  cleanup (lines 78-82) removes
both data listeners and clears the main timeout. -/

structure OldState where
  chunks : List String
  errChunks : List String
  completed : Bool
  pollActive : Bool
  timerArmed : Bool
  outListenerOn : Bool
  errListenerOn : Bool
  resolutions : List Outcome
deriving Repr, DecidableEq

def initOldState : OldState :=
  { chunks := [], errChunks := [], completed := false, pollActive := true,
    timerArmed := true, outListenerOn := true, errListenerOn := true,
    resolutions := [] }

/-- Events of the polling variant: data chunks, one tick of the checkOutput
interval, the main timeout firing, and the auxiliary timer that stops the
polling interval at the deadline. -/
inductive OldEv where
  | out (chunk : String)
  | err (chunk : String)
  | poll
  | timeout
  | stopPoll
deriving Repr, DecidableEq

/-- One tick of the checkOutput interval (lines 89-105): concatenate the
accumulated chunks, search for the marker; on a hit clear the interval and,
if not yet completed, run cleanup and resolve successfully with the FIRST
occurrence of the marker removed and the result trimmed; stderr is returned
raw (unstripped, untrimmed). -/
def pollTick (m : String) (st : OldState) : OldState :=
  let output := String.join st.chunks
  if jsIncludes output m then
    if st.completed then
      { st with pollActive := false }
    else
      { st with
        pollActive := false, completed := true,
        outListenerOn := false, errListenerOn := false, timerArmed := false,
        resolutions := st.resolutions ++
          [⟨true, jsTrim (jsReplaceFirst output m),
            String.join st.errChunks, 0, none⟩] }
  else
    st

/-- The main timeout callback (lines 57-68): if not completed, run cleanup
and resolve as a failure with exit code -1 (the interval is NOT cleared
here; only the auxiliary timer of line 107 stops it). -/
def oldTimeoutFire (st : OldState) : OldState :=
  if st.completed then
    { st with timerArmed := false }
  else
    { st with
      completed := true, timerArmed := false,
      outListenerOn := false, errListenerOn := false,
      resolutions := st.resolutions ++
        [⟨false, String.join st.chunks,
          String.join st.errChunks ++ "\nCommand timed out", -1, none⟩] }

def stepOld (m : String) (st : OldState) : OldEv → OldState
  | .out c => if st.outListenerOn then { st with chunks := st.chunks ++ [c] } else st
  | .err c => if st.errListenerOn then { st with errChunks := st.errChunks ++ [c] } else st
  | .poll => if st.pollActive then pollTick m st else st
  | .timeout => if st.timerArmed then oldTimeoutFire st else st
  | .stopPoll => { st with pollActive := false }

def runOld (m : String) (evs : List OldEv) : OldState :=
  evs.foldl (stepOld m) initOldState

/-! ## Node path.posix functions used by the directory tracker

updateWorkingDirectory calls path.dirname, path.join, path.resolve and
path.isAbsolute.  The sources run these on the platform path module; the
tracked directories in the specification are POSIX paths, so the POSIX
versions are embedded.  resolve and join are modelled for the reachable
inputs: the base handed to them is the session's tracked directory, which is
always an absolute path (it starts as the process working directory and every
update keeps it absolute). -/

def posixIsAbsolute (p : String) : Bool :=
  p.data.head? = some '/'

/-- Node path.posix.dirname: mirror of the index scan of the Node source
(skip trailing separators from the end, then cut before the previous
separator; the leading character is never examined). -/
def posixDirname (p : String) : String :=
  if p = "" then "."
  else
    let cs := p.data
    let hasRoot : Bool := cs.head? = some '/'
    let rtail := (cs.drop 1).reverse
    let afterSlashes := rtail.dropWhile (fun c => c = '/')
    let rest2 := afterSlashes.dropWhile (fun c => decide (c ≠ '/'))
    if rest2.isEmpty then (if hasRoot then "/" else ".")
    else if hasRoot ∧ rest2.length = 1 then "//"
    else ⟨cs.take rest2.length⟩

/-- Split a path on the separator character. -/
def splitSlashAux (cur : List Char) : List Char → List String
  | [] => [⟨cur.reverse⟩]
  | c :: rest =>
    if c = '/' then ⟨cur.reverse⟩ :: splitSlashAux [] rest
    else splitSlashAux (c :: cur) rest

def splitSlash (p : String) : List String :=
  splitSlashAux [] p.data

/-- Segment normalization shared by Node normalize and resolve: empty and
dot segments vanish, dot-dot pops the stack when possible; above the root it
is dropped for absolute paths and kept for relative ones.  The stack is kept
reversed (head = last segment). -/
def normStack (absOk : Bool) : List String → List String → List String
  | stack, [] => stack
  | stack, seg :: rest =>
    if seg = "" ∨ seg = "." then normStack absOk stack rest
    else if seg = ".." then
      match stack with
      | [] => normStack absOk (if absOk then [] else [".."]) rest
      | top :: stk =>
        if top = ".." then normStack absOk (".." :: top :: stk) rest
        else normStack absOk stk rest
    else normStack absOk (seg :: stack) rest

/-- Node path.posix.normalize, without the trailing-separator special cases
that the tracker never produces on its reachable inputs. -/
def posixNormalize (p : String) : String :=
  if p = "" then "."
  else
    let abs := posixIsAbsolute p
    let trailing : Bool := p.data.getLast? = some '/'
    let body := String.intercalate "/" (normStack abs [] (splitSlash p)).reverse
    let core :=
      if abs then (if body = "" then "/" else "/" ++ body)
      else (if body = "" then "." else body)
    if trailing ∧ core ≠ "/" ∧ core ≠ "." then core ++ "/" else core

/-- Node path.posix.resolve restricted to two arguments with an absolute
base, the only way the tracker invokes it. -/
def posixResolve (base target : String) : String :=
  let combined := if posixIsAbsolute target then target else base ++ "/" ++ target
  let body :=
    String.intercalate "/"
      (normStack (posixIsAbsolute combined) [] (splitSlash combined)).reverse
  if posixIsAbsolute combined then (if body = "" then "/" else "/" ++ body)
  else (if body = "" then "." else body)

/-- Node path.posix.join of two segments: drop empty parts, join with the
separator, normalize. -/
def posixJoin (a b : String) : String :=
  let parts := [a, b].filter (fun s => s ≠ "")
  if parts = [] then "." else posixNormalize (String.intercalate "/" parts)

/-! ## Directory tracker
(src/terminal_mcp_new.js lines 144-170, TerminalSession.updateWorkingDirectory;
the free function updateWorkingDirectory of the persistent single-session
variant, lines 132-158 of that file, is identical.)

The cd pattern is the JavaScript regex matching: start anchor, any whitespace,
the literal letters c d, at least one whitespace character, then a capture of
arbitrary characters up to the end anchor.  Because the dot class excludes
line terminators while the whitespace class includes them, the regex matches
exactly when, after the leading whitespace and the letters c d, at least one
whitespace character follows and the text after the maximal whitespace run
contains no line terminator; the capture is that text. -/

def lineTerminator (c : Char) : Bool :=
  c = '\n' || c = '\r'

/-- The match of command.match with the cd regex: none when the command does
not match, otherwise the first capture group. -/
def cdMatch (cmd : String) : Option String :=
  match cmd.data.dropWhile jsWhitespace with
  | 'c' :: 'd' :: rest =>
    let ws := rest.takeWhile jsWhitespace
    let cap := rest.dropWhile jsWhitespace
    if ws.length ≥ 1 ∧ cap.all (fun c => !lineTerminator c) then some ⟨cap⟩
    else none
  | _ => none

/-- Quote handling, lines 150-153: a target that both starts and ends with a
double quote, or both starts and ends with a single quote, loses its first
and last character. -/
def stripQuotes (t : String) : String :=
  let cs := t.data
  let dq : Char := Char.ofNat 34
  let sq : Char := Char.ofNat 39
  if (cs.head? = some dq ∧ cs.getLast? = some dq) ∨
     (cs.head? = some sq ∧ cs.getLast? = some sq) then
    ⟨(cs.drop 1).dropLast⟩
  else t

/-- TerminalSession.updateWorkingDirectory as a pure function of the home
directory, the current tracked path and the command text, returning the new
tracked path. -/
def updateWorkingDirectory (home cwd cmd : String) : String :=
  match cdMatch cmd with
  | none => cwd
  | some cap =>
    let t0 := jsTrim cap
    let targetDir := stripQuotes t0
    if ¬ posixIsAbsolute targetDir then
      if targetDir = ".." then posixDirname cwd
      else if targetDir = "~" then home
      else if targetDir.data.take 2 = ['~', '/'] then
        posixJoin home ⟨targetDir.data.drop 2⟩
      else posixResolve cwd targetDir
    else targetDir

/-! ## Session registry (src/terminal_mcp_new.js, TerminalManager)

The sessions map is modelled as an association list in insertion order, which
is how a JavaScript Map iterates.  Only the session fields the registry
claims touch are carried. -/

structure Session where
  workingDirectory : String
  isActive : Bool
  lastActivity : Int
deriving Repr, DecidableEq

structure Registry where
  sessions : List (String × Session)
  nextId : Nat
deriving Repr, DecidableEq

def hasId (l : List (String × Session)) (id : String) : Bool :=
  l.any (fun p => p.1 = id)

/-- The single quote character, used in the duplicate-session message. -/
def sqStr : String :=
  String.singleton (Char.ofNat 39)

def dupMsg (id : String) : String :=
  "Terminal session " ++ sqStr ++ id ++ sqStr ++ " already exists"

/-- The TerminalSession constructor (lines 27-36) as far as the registry
claims observe it: a fresh session is not yet active and records the
creation instant as its last activity. -/
def mkSession (now : Int) (cwd : String) : Session :=
  { workingDirectory := cwd, isActive := false, lastActivity := now }

/-- TerminalManager.createSession, lines 204-215.  options.id is used when it
is a truthy string (the empty string is falsy in JavaScript, so it triggers
generation just as an absent id does); generating an id is what increments
nextId, and the increment happens before the duplicate check. -/
def createSession (now : Int) (reg : Registry) (optId : Option String)
    (cwd : String) : Except String Session × Registry :=
  let generated : Bool := match optId with | none => true | some s => s = ""
  let id := if generated then "terminal_" ++ toString reg.nextId else optId.getD ""
  let reg1 := if generated then { reg with nextId := reg.nextId + 1 } else reg
  if hasId reg1.sessions id then
    (Except.error (dupMsg id), reg1)
  else
    let s := mkSession now cwd
    (Except.ok s, { reg1 with sessions := reg1.sessions ++ [(id, s)] })

/-- TerminalManager.cleanupInactiveSessions, lines 246-264: collect every
entry that is inactive or idle beyond maxAge, kill it and delete it from the
map; equivalently, keep exactly the entries that are active and recent. -/
def cleanupInactiveSessions (now maxAge : Int) (sessions : List (String × Session)) :
    List (String × Session) :=
  sessions.filter (fun p => !(!p.2.isActive || decide (now - p.2.lastActivity > maxAge)))

/-! ## Tool dispatch boundaries -/

/-- A textual tool response with its error flag (every handler of the sources
returns a single text content block). -/
structure ToolResponse where
  text : String
  isError : Bool
deriving Repr, DecidableEq

/-- The try/catch wrapper of the CallToolRequestSchema handlers of
src/terminal_mcp_new.js (lines 373-536) and of the persistent single-session
variant (lines 204-303): an inner dispatch that either returns a response or
throws a message is converted, in the catch arm, into a textual response
carrying the message with the error flag set. -/
def catchBoundary (inner : Except String ToolResponse) : ToolResponse :=
  match inner with
  | Except.ok r => r
  | Except.error msg => { text := "Error: " ++ msg, isError := true }

/-- The default arm of the dispatch switch in both variants with a catch
boundary: an unknown operation name throws. -/
def unknownToolNew (name : String) : Except String ToolResponse :=
  Except.error ("Unknown tool: " ++ name)

/-- The CallToolRequestSchema handler of src/terminal_mcp.js, lines 141-159:
no try/catch at all.  A name other than execute_command throws (the
Except.error value models the exception propagating out of the handler);
otherwise the outcome of executeCommand is rendered. -/
def oldHandleToolCall (name : String) (result : Outcome) :
    Except String ToolResponse :=
  if name ≠ "execute_command" then Except.error "Unknown tool"
  else Except.ok { text := result.stdout, isError := !result.success }

/-! ## execute_command dispatch of the persistent single-session variant
(lines 206-242 of that file). -/

/-- Which execution path the handler takes, as decided by line 209: the
condition is use-persistent-shell strictly-unequal to true, and THAT branch
runs executeCommandInShell, while the else branch runs the one-shot exec
fallback. -/
inductive ExecPath where
  | persistentShell
  | oneShotExec
deriving Repr, DecidableEq

def chooseExecPath (use_persistent_shell : Option Bool) : ExecPath :=
  if use_persistent_shell ≠ some true then ExecPath.persistentShell
  else ExecPath.oneShotExec

/-- The effect of one execute_command dispatch on the tracked working
directory (lines 209-214): the persistent-shell branch calls
executeCommandInShell, whose body (lines 63-129) never touches
currentWorkingDirectory; the exec fallback branch first applies
updateWorkingDirectory to the command. -/
def executeToolCwd (home cwd : String) (use_persistent_shell : Option Bool)
    (cmd : String) : String :=
  if use_persistent_shell ≠ some true then cwd
  else updateWorkingDirectory home cwd cmd

/-! ## Generic facts about the executeCommand event machine -/

/-- An event that makes the machine resolve when it arrives in the initial
listening state: a stdout chunk containing the whole marker, or the timer
firing.  (stderr chunks are never searched for the marker.) -/
def isTrigger (m : String) : Ev → Bool
  | .out c => jsIncludes c m
  | .err _ => false
  | .timeout => true

/-- Concatenation of all stdout chunks of an event list. -/
def outsConcat : List Ev → String
  | [] => ""
  | Ev.out c :: r => c ++ outsConcat r
  | Ev.err _ :: r => outsConcat r
  | Ev.timeout :: r => outsConcat r

/-- Concatenation of all stderr chunks of an event list. -/
def errsConcat : List Ev → String
  | [] => ""
  | Ev.out _ :: r => errsConcat r
  | Ev.err c :: r => c ++ errsConcat r
  | Ev.timeout :: r => errsConcat r

theorem onData_processKilled (m em : String) (st : ExecState) (c : String) :
    (onData m em st c).processKilled = st.processKilled := by
  unfold onData
  split <;> [split <;> rfl; rfl]

theorem timeoutFire_processKilled (st : ExecState) :
    (timeoutFire st).processKilled = st.processKilled := by
  unfold timeoutFire
  split <;> rfl

theorem stepNew_processKilled (m em : String) (st : ExecState) (e : Ev) :
    (stepNew m em st e).processKilled = st.processKilled := by
  cases e with
  | out c =>
    simp only [stepNew]
    split
    · exact onData_processKilled m em st c
    · rfl
  | err c =>
    simp only [stepNew]
    split <;> rfl
  | timeout =>
    simp only [stepNew]
    split
    · exact timeoutFire_processKilled st
    · rfl

theorem foldl_stepNew_processKilled (m em : String) (evs : List Ev) (st : ExecState) :
    (evs.foldl (stepNew m em) st).processKilled = st.processKilled := by
  induction evs generalizing st with
  | nil => rfl
  | cons e r ih => rw [List.foldl_cons, ih, stepNew_processKilled]

/-- Invariant tying the number of resolve calls to the completed flag, and
recording that a disarmed timer means the call already completed. -/
def InvN (st : ExecState) : Prop :=
  st.resolutions.length = (if st.completed then 1 else 0) ∧
  (st.timerArmed = false → st.completed = true)

theorem stepNew_inv (m em : String) (st : ExecState) (e : Ev) (h : InvN st) :
    InvN (stepNew m em st e) := by
  obtain ⟨h1, h2⟩ := h
  cases e with
  | out c =>
    simp only [stepNew]
    split
    · unfold onData
      split
      · split
        · exact ⟨h1, h2⟩
        · rename_i hc
          have hcf : st.completed = false := by
            simpa using hc
          refine ⟨?_, fun _ => rfl⟩
          simp [InvN, h1, hcf]
      · exact ⟨h1, h2⟩
    · exact ⟨h1, h2⟩
  | err c =>
    simp only [stepNew]
    split
    · exact ⟨h1, h2⟩
    · exact ⟨h1, h2⟩
  | timeout =>
    simp only [stepNew]
    split
    · unfold timeoutFire
      split
      · rename_i hcomp
        exact ⟨h1, fun _ => hcomp⟩
      · rename_i hcomp
        have hcf : st.completed = false := by
          simpa using hcomp
        refine ⟨?_, fun _ => rfl⟩
        simp [InvN, h1, hcf]
    · exact ⟨h1, h2⟩

theorem foldl_stepNew_inv (m em : String) (evs : List Ev) (st : ExecState)
    (h : InvN st) : InvN (evs.foldl (stepNew m em) st) := by
  induction evs generalizing st with
  | nil => exact h
  | cons e r ih => exact ih _ (stepNew_inv m em st e h)

theorem initExecState_inv : InvN initExecState :=
  ⟨rfl, by intro h; simp [initExecState] at h⟩

theorem stepNew_completed_mono (m em : String) (st : ExecState) (e : Ev)
    (h : st.completed = true) : (stepNew m em st e).completed = true := by
  cases e with
  | out c =>
    simp only [stepNew]
    split
    · unfold onData
      split
      · simp [h]
      · exact h
    · exact h
  | err c =>
    simp only [stepNew]
    split
    · exact h
    · exact h
  | timeout =>
    simp only [stepNew]
    split
    · unfold timeoutFire
      simp [h]
    · exact h

theorem foldl_stepNew_completed_mono (m em : String) (evs : List Ev) (st : ExecState)
    (h : st.completed = true) : (evs.foldl (stepNew m em) st).completed = true := by
  induction evs generalizing st with
  | nil => exact h
  | cons e r ih => exact ih _ (stepNew_completed_mono m em st e h)

theorem stepNew_resolutions_of_completed (m em : String) (st : ExecState) (e : Ev)
    (h : st.completed = true) : (stepNew m em st e).resolutions = st.resolutions := by
  cases e with
  | out c =>
    simp only [stepNew]
    split
    · unfold onData
      split
      · simp [h]
      · rfl
    · rfl
  | err c =>
    simp only [stepNew]
    split
    · rfl
    · rfl
  | timeout =>
    simp only [stepNew]
    split
    · unfold timeoutFire
      simp [h]
    · rfl

theorem foldl_stepNew_resolutions_of_completed (m em : String) (evs : List Ev)
    (st : ExecState) (h : st.completed = true) :
    (evs.foldl (stepNew m em) st).resolutions = st.resolutions := by
  induction evs generalizing st with
  | nil => rfl
  | cons e r ih =>
    rw [List.foldl_cons, ih _ (stepNew_completed_mono m em st e h),
      stepNew_resolutions_of_completed m em st e h]

/-- While no trigger event has arrived, the machine just accumulates chunks:
the flags stay in their initial configuration and nothing resolves. -/
theorem foldl_stepNew_noTrigger (m em : String) (evs : List Ev)
    (h : ∀ e ∈ evs, isTrigger m e = false) (A B : String) :
    evs.foldl (stepNew m em)
      { stdout := A, stderr := B, completed := false, timerArmed := true,
        outListenerOn := true, errListenerOn := true, processKilled := false,
        resolutions := [] } =
      { stdout := A ++ outsConcat evs, stderr := B ++ errsConcat evs,
        completed := false, timerArmed := true, outListenerOn := true,
        errListenerOn := true, processKilled := false, resolutions := [] } := by
  induction evs generalizing A B with
  | nil => simp [outsConcat, errsConcat, String.append_empty]
  | cons e r ih =>
    cases e with
    | out c =>
      have hc : jsIncludes c m = false := h (Ev.out c) (by simp)
      rw [List.foldl_cons]
      have hstep :
          stepNew m em
            { stdout := A, stderr := B, completed := false, timerArmed := true,
              outListenerOn := true, errListenerOn := true,
              processKilled := false, resolutions := [] } (Ev.out c) =
            { stdout := A ++ c, stderr := B, completed := false,
              timerArmed := true, outListenerOn := true, errListenerOn := true,
              processKilled := false, resolutions := [] } := by
        simp [stepNew, onData, hc]
      rw [hstep, ih (fun x hx => h x (by simp [hx])) (A ++ c) B,
        outsConcat, String.append_assoc]
      simp [errsConcat]
    | err c =>
      rw [List.foldl_cons]
      have hstep :
          stepNew m em
            { stdout := A, stderr := B, completed := false, timerArmed := true,
              outListenerOn := true, errListenerOn := true,
              processKilled := false, resolutions := [] } (Ev.err c) =
            { stdout := A, stderr := B ++ c, completed := false,
              timerArmed := true, outListenerOn := true, errListenerOn := true,
              processKilled := false, resolutions := [] } := by
        simp [stepNew]
      rw [hstep, ih (fun x hx => h x (by simp [hx])) A (B ++ c),
        errsConcat, String.append_assoc]
      simp [outsConcat]
    | timeout =>
      have := h Ev.timeout (by simp)
      simp [isTrigger] at this

/-- A marker-bearing stdout chunk arriving in the listening state resolves
successfully with the cleaned buffers. -/
theorem stepNew_trigger_out (m em A B c : String) (hc : jsIncludes c m = true) :
    stepNew m em
      { stdout := A, stderr := B, completed := false, timerArmed := true,
        outListenerOn := true, errListenerOn := true, processKilled := false,
        resolutions := [] } (Ev.out c) =
      { stdout := jsTrim (jsReplaceAll (A ++ c) m),
        stderr := jsTrim (jsReplaceAll B em), completed := true,
        timerArmed := false, outListenerOn := false, errListenerOn := false,
        processKilled := false,
        resolutions := [⟨true, jsTrim (jsReplaceAll (A ++ c) m),
          jsTrim (jsReplaceAll B em), 0, none⟩] } := by
  simp [stepNew, onData, hc]

/-- The timer firing in the listening state resolves as a timeout failure
carrying the partial buffers. -/
theorem stepNew_trigger_timeout (m em A B : String) :
    stepNew m em
      { stdout := A, stderr := B, completed := false, timerArmed := true,
        outListenerOn := true, errListenerOn := true, processKilled := false,
        resolutions := [] } Ev.timeout =
      { stdout := A, stderr := B, completed := true, timerArmed := false,
        outListenerOn := true, errListenerOn := true, processKilled := false,
        resolutions := [⟨false, A, B ++ "\nCommand timed out", -1,
          some "Command timed out"⟩] } := by
  simp [stepNew, timeoutFire]

/-- Once the timeout event has been delivered, the call has completed (either
the timer fired, or it had been disarmed, which only happens on completion). -/
theorem foldl_stepNew_timeout_mem (m em : String) (evs : List Ev) (st : ExecState)
    (hst : InvN st) (hm : Ev.timeout ∈ evs) :
    (evs.foldl (stepNew m em) st).completed = true := by
  induction evs generalizing st with
  | nil => cases hm
  | cons e r ih =>
    rw [List.foldl_cons]
    rcases List.mem_cons.mp hm with he | hr
    · subst he
      have hdone : (stepNew m em st Ev.timeout).completed = true := by
        simp only [stepNew]
        split
        · unfold timeoutFire
          split
          · assumption
          · rfl
        · rename_i hta
          exact hst.2 (by simpa using hta)
      exact foldl_stepNew_completed_mono m em r _ hdone
    · exact ih (stepNew m em st e) (stepNew_inv m em st e hst) hr


/-! ## Generic facts about the polling machine -/

theorem pollTick_no_hit (m : String) (st : OldState)
    (hj : jsIncludes (String.join st.chunks) m = false) : pollTick m st = st := by
  simp [pollTick, hj]

theorem pollTick_hit_completed (m : String) (st : OldState)
    (hj : jsIncludes (String.join st.chunks) m = true)
    (hc : st.completed = true) :
    pollTick m st = { st with pollActive := false } := by
  simp [pollTick, hj, hc]

theorem pollTick_hit (m : String) (st : OldState)
    (hj : jsIncludes (String.join st.chunks) m = true)
    (hc : st.completed = false) :
    pollTick m st =
      { chunks := st.chunks, errChunks := st.errChunks, completed := true,
        pollActive := false, timerArmed := false, outListenerOn := false,
        errListenerOn := false,
        resolutions := st.resolutions ++
          [⟨true, jsTrim (jsReplaceFirst (String.join st.chunks) m),
            String.join st.errChunks, 0, none⟩] } := by
  simp [pollTick, hj, hc]

/-- The same resolve-count invariant for the polling variant. -/
def InvO (st : OldState) : Prop :=
  st.resolutions.length = (if st.completed then 1 else 0) ∧
  (st.timerArmed = false → st.completed = true)

theorem stepOld_inv (m : String) (st : OldState) (e : OldEv) (h : InvO st) :
    InvO (stepOld m st e) := by
  obtain ⟨h1, h2⟩ := h
  cases e with
  | out c =>
    simp only [stepOld]
    split
    · exact ⟨h1, h2⟩
    · exact ⟨h1, h2⟩
  | err c =>
    simp only [stepOld]
    split
    · exact ⟨h1, h2⟩
    · exact ⟨h1, h2⟩
  | poll =>
    simp only [stepOld]
    split
    · by_cases hj : jsIncludes (String.join st.chunks) m = true
      · by_cases hc : st.completed = true
        · rw [pollTick_hit_completed m st hj hc]
          exact ⟨h1, h2⟩
        · have hcf : st.completed = false := by
            simpa using hc
          rw [pollTick_hit m st hj hcf]
          refine ⟨?_, fun _ => rfl⟩
          simp [h1, hcf]
      · have hjf : jsIncludes (String.join st.chunks) m = false := by
          simpa using hj
        rw [pollTick_no_hit m st hjf]
        exact ⟨h1, h2⟩
    · exact ⟨h1, h2⟩
  | timeout =>
    simp only [stepOld]
    split
    · unfold oldTimeoutFire
      split
      · rename_i hcomp
        exact ⟨h1, fun _ => hcomp⟩
      · rename_i hcomp
        have hcf : st.completed = false := by
          simpa using hcomp
        refine ⟨?_, fun _ => rfl⟩
        simp [h1, hcf]
    · exact ⟨h1, h2⟩
  | stopPoll =>
    exact ⟨h1, h2⟩

theorem foldl_stepOld_inv (m : String) (evs : List OldEv) (st : OldState)
    (h : InvO st) : InvO (evs.foldl (stepOld m) st) := by
  induction evs generalizing st with
  | nil => exact h
  | cons e r ih => exact ih _ (stepOld_inv m st e h)

theorem initOldState_inv : InvO initOldState :=
  ⟨rfl, by intro h; simp [initOldState] at h⟩

theorem stepOld_completed_mono (m : String) (st : OldState) (e : OldEv)
    (h : st.completed = true) : (stepOld m st e).completed = true := by
  cases e with
  | out c =>
    simp only [stepOld]
    split
    · exact h
    · exact h
  | err c =>
    simp only [stepOld]
    split
    · exact h
    · exact h
  | poll =>
    simp only [stepOld]
    split
    · by_cases hj : jsIncludes (String.join st.chunks) m = true
      · rw [pollTick_hit_completed m st hj h]
        exact h
      · have hjf : jsIncludes (String.join st.chunks) m = false := by
          simpa using hj
        rw [pollTick_no_hit m st hjf]
        exact h
    · exact h
  | timeout =>
    simp only [stepOld]
    split
    · unfold oldTimeoutFire
      simp [h]
    · exact h
  | stopPoll =>
    exact h

theorem foldl_stepOld_completed_mono (m : String) (evs : List OldEv) (st : OldState)
    (h : st.completed = true) : (evs.foldl (stepOld m) st).completed = true := by
  induction evs generalizing st with
  | nil => exact h
  | cons e r ih => exact ih _ (stepOld_completed_mono m st e h)

theorem foldl_stepOld_timeout_mem (m : String) (evs : List OldEv) (st : OldState)
    (hst : InvO st) (hm : OldEv.timeout ∈ evs) :
    (evs.foldl (stepOld m) st).completed = true := by
  induction evs generalizing st with
  | nil => cases hm
  | cons e r ih =>
    rw [List.foldl_cons]
    rcases List.mem_cons.mp hm with he | hr
    · subst he
      have hdone : (stepOld m st OldEv.timeout).completed = true := by
        simp only [stepOld]
        split
        · unfold oldTimeoutFire
          split
          · assumption
          · rfl
        · rename_i hta
          exact hst.2 (by simpa using hta)
      exact foldl_stepOld_completed_mono m r _ hdone
    · exact ih (stepOld m st e) (stepOld_inv m st e hst) hr

/-! ## The claims -/

/-- Claim C1.  The claim says marker detection searches the accumulated
output buffer, so a marker split across chunk boundaries is still detected
and the call resolves successfully.  In TerminalSession.executeCommand
(src/terminal_mcp_new.js line 104, identically in executeCommandInShell)
the test is output.includes(marker) on the single chunk just delivered, so
at the concrete input below, where the marker arrives split across two
chunks, nothing resolves even though the accumulated stdout buffer contains
the marker; the polling variant of src/terminal_mcp.js, which concatenates
the accumulated chunks before searching, does detect the same split
delivery and resolves successfully. -/
theorem C1_split_marker_missed :
    (runNew (mkCompleteMarker "t1" "0") (mkErrorMarker "t1" "0")
        [Ev.out "a__COMMAND_COMPLETE_", Ev.out "t1_0__"]).resolutions = [] ∧
    jsIncludes
      (runNew (mkCompleteMarker "t1" "0") (mkErrorMarker "t1" "0")
          [Ev.out "a__COMMAND_COMPLETE_", Ev.out "t1_0__"]).stdout
      (mkCompleteMarker "t1" "0") = true ∧
    (runOld (mkOldMarker "0")
        [OldEv.out "a__COMMAND_COMPLETE_", OldEv.out "0__",
          OldEv.poll]).resolutions.map Outcome.success = [true] := by
  decide

/-- Claim C2.  Every execution resolves at most once, and exactly once as
soon as the timeout event has been delivered; whichever trigger (a stdout
chunk containing the marker, or the timer) comes first determines the
outcome, and the losing path never produces a second resolution.  This
holds for the per-chunk machine of src/terminal_mcp_new.js and
executeCommandInShell, and for the polling machine of src/terminal_mcp.js,
over every interleaving of chunk arrivals and timer firing. -/
theorem C2_exactly_once :
    (∀ m em evs, (runNew m em evs).resolutions.length ≤ 1) ∧
    (∀ m em evs, Ev.timeout ∈ evs → (runNew m em evs).resolutions.length = 1) ∧
    (∀ m em (evs₁ evs₂ : List Ev) (e : Ev),
      (∀ x ∈ evs₁, isTrigger m x = false) → isTrigger m e = true →
        (runNew m em (evs₁ ++ e :: evs₂)).resolutions.map Outcome.success =
          [match e with | Ev.timeout => false | _ => true]) ∧
    (∀ m evs, (runOld m evs).resolutions.length ≤ 1) ∧
    (∀ m evs, OldEv.timeout ∈ evs → (runOld m evs).resolutions.length = 1) := by
  refine ⟨?_, ?_, ?_, ?_, ?_⟩
  · intro m em evs
    obtain ⟨h1, -⟩ := foldl_stepNew_inv m em evs initExecState initExecState_inv
    unfold runNew
    rw [h1]
    split <;> omega
  · intro m em evs hmem
    have hc := foldl_stepNew_timeout_mem m em evs initExecState initExecState_inv hmem
    obtain ⟨h1, -⟩ := foldl_stepNew_inv m em evs initExecState initExecState_inv
    unfold runNew
    rw [h1, hc]
    rfl
  · intro m em evs₁ evs₂ e hnt ht
    unfold runNew
    rw [List.foldl_append, List.foldl_cons]
    have hinit :
        initExecState =
          { stdout := "", stderr := "", completed := false, timerArmed := true,
            outListenerOn := true, errListenerOn := true,
            processKilled := false, resolutions := [] } := rfl
    rw [hinit, foldl_stepNew_noTrigger m em evs₁ hnt "" ""]
    cases e with
    | out c =>
      have hj : jsIncludes c m = true := by
        simpa [isTrigger] using ht
      rw [stepNew_trigger_out m em _ _ c hj,
        foldl_stepNew_resolutions_of_completed m em evs₂ _ rfl]
      rfl
    | err c =>
      simp [isTrigger] at ht
    | timeout =>
      rw [stepNew_trigger_timeout,
        foldl_stepNew_resolutions_of_completed m em evs₂ _ rfl]
      rfl
  · intro m evs
    obtain ⟨h1, -⟩ := foldl_stepOld_inv m evs initOldState initOldState_inv
    unfold runOld
    rw [h1]
    split <;> omega
  · intro m evs hmem
    have hc := foldl_stepOld_timeout_mem m evs initOldState initOldState_inv hmem
    obtain ⟨h1, -⟩ := foldl_stepOld_inv m evs initOldState initOldState_inv
    unfold runOld
    rw [h1, hc]
    rfl

/-- Witness for C2 at a concrete event list containing the timeout event:
the hypothesis of the second conjunct is discharged at the singleton
timeout interleaving, where the call resolves exactly once. -/
theorem C2_exactly_once_witness :
    Ev.timeout ∈ [Ev.timeout] ∧
    (runNew "__M__" "__E__" [Ev.timeout]).resolutions.length = 1 :=
  ⟨by decide, C2_exactly_once.2.1 "__M__" "__E__" [Ev.timeout] (by decide)⟩

/-- Claim C3.  If the timeout fires before any marker-bearing stdout chunk
has arrived, the call resolves as a failure with exit code -1, the timed-out
notice appended to the accumulated stderr buffer, and the partial stdout and
stderr accumulated so far; and no handler of executeCommand ever kills the
shell process, in particular the timeout path does not. -/
theorem C3_timeout_resolution :
    (∀ m em (evs₁ evs₂ : List Ev), (∀ x ∈ evs₁, isTrigger m x = false) →
      (runNew m em (evs₁ ++ Ev.timeout :: evs₂)).resolutions =
        [⟨false, outsConcat evs₁, errsConcat evs₁ ++ "\nCommand timed out", -1,
          some "Command timed out"⟩]) ∧
    (∀ m em evs, (runNew m em evs).processKilled = false) := by
  constructor
  · intro m em evs₁ evs₂ hnt
    unfold runNew
    rw [List.foldl_append, List.foldl_cons]
    have hinit :
        initExecState =
          { stdout := "", stderr := "", completed := false, timerArmed := true,
            outListenerOn := true, errListenerOn := true,
            processKilled := false, resolutions := [] } := rfl
    rw [hinit, foldl_stepNew_noTrigger m em evs₁ hnt "" "",
      stepNew_trigger_timeout,
      foldl_stepNew_resolutions_of_completed m em evs₂ _ rfl,
      String.empty_append, String.empty_append]
  · intro m em evs
    unfold runNew
    rw [foldl_stepNew_processKilled]
    rfl

/-- Witness for C3: two non-trigger chunks followed by the timer firing
resolve with the accumulated partial output, exit code -1 and the appended
notice, and the process-kill flag stays clear. -/
theorem C3_timeout_resolution_witness :
    (∀ x ∈ [Ev.out "par", Ev.err "tial"], isTrigger "__M__" x = false) ∧
    (runNew "__M__" "__E__"
        ([Ev.out "par", Ev.err "tial"] ++ Ev.timeout :: [])).resolutions =
      [⟨false, outsConcat [Ev.out "par", Ev.err "tial"],
        errsConcat [Ev.out "par", Ev.err "tial"] ++ "\nCommand timed out", -1,
        some "Command timed out"⟩] ∧
    (runNew "__M__" "__E__"
        ([Ev.out "par", Ev.err "tial"] ++ Ev.timeout :: [])).processKilled = false :=
  ⟨by decide,
   C3_timeout_resolution.1 "__M__" "__E__" [Ev.out "par", Ev.err "tial"] []
     (by decide),
   C3_timeout_resolution.2 "__M__" "__E__"
     ([Ev.out "par", Ev.err "tial"] ++ Ev.timeout :: [])⟩

/-- Counterexample to claim C4 as stated.  In the polling variant the
success resolution removes only the FIRST occurrence of the completion
marker (src/terminal_mcp.js line 96 calls replace with a string pattern):
when the accumulated output consists of two copies of the marker, the
resolved stdout is still one full copy of the marker, so not every
occurrence was stripped. -/
theorem C4_counterexample :
    (runOld (mkOldMarker "0")
        [OldEv.out (mkOldMarker "0" ++ mkOldMarker "0"),
          OldEv.poll]).resolutions.map Outcome.stdout = [mkOldMarker "0"] ∧
    jsIncludes (mkOldMarker "0") (mkOldMarker "0") = true := by
  decide

/-- Claim C4, amended.  When a marker-bearing chunk is observed while the
call is still listening, it resolves successfully with exit code 0
unconditionally.  In TerminalSession.executeCommand (and identically in
executeCommandInShell) every occurrence of the completion marker is
stripped from the stdout buffer, every occurrence of the error marker from
the stderr buffer, and both are trimmed; in the polling variant of
src/terminal_mcp.js only the first occurrence of the completion marker is
removed from stdout, only stdout is trimmed, and stderr is returned raw. -/
theorem C4_marker_resolution :
    (∀ m em (st : ExecState) (c : String), st.completed = false →
      st.outListenerOn = true → jsIncludes c m = true →
      (stepNew m em st (Ev.out c)).resolutions =
        st.resolutions ++ [⟨true, jsTrim (jsReplaceAll (st.stdout ++ c) m),
          jsTrim (jsReplaceAll st.stderr em), 0, none⟩]) ∧
    (∀ m (st : OldState), st.pollActive = true → st.completed = false →
      jsIncludes (String.join st.chunks) m = true →
      (stepOld m st OldEv.poll).resolutions =
        st.resolutions ++ [⟨true, jsTrim (jsReplaceFirst (String.join st.chunks) m),
          String.join st.errChunks, 0, none⟩]) := by
  constructor
  · intro m em st c hc hl hj
    simp [stepNew, hl, onData, hj, hc]
  · intro m st hp hc hj
    simp only [stepOld, hp, if_true]
    rw [pollTick_hit m st hj hc]

/-- Witness for C4: a fresh listening state receiving one chunk carrying
the marker resolves with the cleaned buffers and exit code 0. -/
theorem C4_marker_resolution_witness :
    initExecState.completed = false ∧
    initExecState.outListenerOn = true ∧
    jsIncludes "x__M__" "__M__" = true ∧
    (stepNew "__M__" "__E__" initExecState (Ev.out "x__M__")).resolutions =
      initExecState.resolutions ++
        [⟨true, jsTrim (jsReplaceAll (initExecState.stdout ++ "x__M__") "__M__"),
          jsTrim (jsReplaceAll initExecState.stderr "__E__"), 0, none⟩] :=
  ⟨rfl, rfl, by decide,
   C4_marker_resolution.1 "__M__" "__E__" initExecState "x__M__" rfl rfl (by decide)⟩

/-- Claim C5.  The directory tracker is a pure function of the current
tracked path and the command text: cd sub appends, cd .. takes the parent,
cd tilde goes to the home directory, a quoted argument is unwrapped, an
absolute argument is taken verbatim, and any command not matching the cd
pattern leaves the tracked path unchanged. -/
theorem C5_directory_tracker :
    (∀ home : String, updateWorkingDirectory home "/tmp" "cd sub" = "/tmp/sub") ∧
    (∀ home : String, updateWorkingDirectory home "/tmp/sub" "cd .." = "/tmp") ∧
    (∀ home : String, updateWorkingDirectory home "/tmp" "cd ~" = home) ∧
    (∀ home : String,
      updateWorkingDirectory home "/tmp" "cd \"my dir\"" = "/tmp/my dir") ∧
    (∀ home : String,
      updateWorkingDirectory home "/tmp" "cd /abs/path" = "/abs/path") ∧
    (∀ home cwd cmd : String, cdMatch cmd = none →
      updateWorkingDirectory home cwd cmd = cwd) := by
  refine ⟨fun _ => rfl, fun _ => rfl, fun _ => rfl, fun _ => rfl, fun _ => rfl,
    fun home cwd cmd h => ?_⟩
  unfold updateWorkingDirectory
  rw [h]

/-- Witness for C5: a command that does not match the cd pattern leaves the
tracked path unchanged. -/
theorem C5_directory_tracker_witness :
    cdMatch "ls -la" = none ∧
    updateWorkingDirectory "/home/u" "/tmp" "ls -la" = "/tmp" :=
  ⟨by decide, C5_directory_tracker.2.2.2.2.2 "/home/u" "/tmp" "ls -la" (by decide)⟩

/-- Counterexample to claim C6 as stated.  The claim ends with: in
particular no session whose last activity is within maxAge is removed.
cleanupInactiveSessions removes a session that is inactive even when its
last activity is the sweep instant itself: here now - lastActivity = 0,
well within maxAge = 500, yet the session is removed because it is
inactive. -/
theorem C6_counterexample :
    cleanupInactiveSessions 1000 500
      [("s1", { workingDirectory := "/tmp", isActive := false,
                lastActivity := 1000 })] = [] ∧
    ((1000 : Int) - 1000 ≤ 500) := by
  decide

/-- Claim C6, amended.  cleanupInactiveSessions keeps exactly the sessions
that are active and whose last activity is within maxAge — equivalently, it
removes exactly those that are inactive or older than maxAge — and the kept
entries are left untouched, in their original order; in particular no
ACTIVE session whose last activity is within maxAge is removed. -/
theorem C6_evictIdle :
    ∀ (now maxAge : Int) (sessions : List (String × Session)),
      (cleanupInactiveSessions now maxAge sessions).Sublist sessions ∧
      ∀ p : String × Session,
        (p ∈ cleanupInactiveSessions now maxAge sessions ↔
          p ∈ sessions ∧ p.2.isActive = true ∧ now - p.2.lastActivity ≤ maxAge) := by
  intro now maxAge sessions
  refine ⟨List.filter_sublist _, fun p => ?_⟩
  simp [cleanupInactiveSessions, List.mem_filter, not_lt]

/-- Witness for C6: an active, recently used session survives the sweep. -/
theorem C6_evictIdle_witness :
    ("a", ({ workingDirectory := "/", isActive := true,
             lastActivity := 5 } : Session)) ∈
      cleanupInactiveSessions 10 100
        [("a", { workingDirectory := "/", isActive := true, lastActivity := 5 })] :=
  ((C6_evictIdle 10 100
      [("a", { workingDirectory := "/", isActive := true,
               lastActivity := 5 })]).2 _).mpr
    ⟨by decide, by decide, by decide⟩

/-- Generated session identifiers are never the empty string. -/
theorem terminal_id_ne_empty (n : Nat) : ("terminal_" ++ toString n) ≠ "" := by
  intro h
  have hl := congrArg String.length h
  rw [String.length_append, String.length_empty] at hl
  have h9 : ("terminal_" : String).length = 9 := rfl
  rw [h9] at hl
  omega

/-- Claim C7.  Creating a session under an id that is already present in
the map fails with the duplicate-session error and returns the registry
completely unchanged: no session is added, no existing entry or the id
counter is modified.  (The hypothesis that the id is non-empty is an
invariant of every reachable registry: the second conjunct shows that any
key a create ever inserts is non-empty, because an empty caller-supplied id
is falsy in JavaScript and triggers generation instead.) -/
theorem C7_duplicate_create :
    (∀ (now : Int) (reg : Registry) (id cwd : String), id ≠ "" →
      hasId reg.sessions id = true →
      createSession now reg (some id) cwd = (Except.error (dupMsg id), reg)) ∧
    (∀ (now : Int) (reg : Registry) (optId : Option String) (cwd k : String)
      (s : Session), (k, s) ∈ (createSession now reg optId cwd).2.sessions →
      (k, s) ∈ reg.sessions ∨ k ≠ "") := by
  constructor
  · intro now reg id cwd hne hdup
    simp [createSession, hne, hdup]
  · intro now reg optId cwd k s hm
    unfold createSession at hm
    cases optId with
    | none =>
      simp at hm
      by_cases hd : hasId reg.sessions ("terminal_" ++ toString reg.nextId) = true
      · simp [hd] at hm
        exact Or.inl hm
      · simp [hd] at hm
        rcases hm with hm | ⟨hk, -⟩
        · exact Or.inl hm
        · exact Or.inr (hk ▸ terminal_id_ne_empty reg.nextId)
    | some t =>
      by_cases ht : t = ""
      · subst ht
        simp at hm
        by_cases hd : hasId reg.sessions ("terminal_" ++ toString reg.nextId) = true
        · simp [hd] at hm
          exact Or.inl hm
        · simp [hd] at hm
          rcases hm with hm | ⟨hk, -⟩
          · exact Or.inl hm
          · exact Or.inr (hk ▸ terminal_id_ne_empty reg.nextId)
      · simp [ht] at hm
        by_cases hd : hasId reg.sessions t = true
        · simp [hd] at hm
          exact Or.inl hm
        · simp [hd] at hm
          rcases hm with hm | ⟨hk, -⟩
          · exact Or.inl hm
          · exact Or.inr (hk ▸ ht)

/-- Witness for C7: creating a second session under the already-present id
fails with the duplicate message and the registry value is unchanged. -/
theorem C7_duplicate_create_witness :
    ("a" : String) ≠ "" ∧
    hasId [("a", ({ workingDirectory := "/", isActive := true,
                    lastActivity := 0 } : Session))] "a" = true ∧
    createSession 5
        { sessions := [("a", { workingDirectory := "/", isActive := true,
                               lastActivity := 0 })], nextId := 3 }
        (some "a") "/w" =
      (Except.error (dupMsg "a"),
        { sessions := [("a", { workingDirectory := "/", isActive := true,
                               lastActivity := 0 })], nextId := 3 }) :=
  ⟨by decide, by decide,
   C7_duplicate_create.1 5
     { sessions := [("a", { workingDirectory := "/", isActive := true,
                            lastActivity := 0 })], nextId := 3 }
     "a" "/w" (by decide) (by decide)⟩

/-- Claim C8.  The claim (and the tool schema, which documents
use_persistent_shell as: use persistent shell session, default true) says a
true flag runs the command in the persistent shell and a false flag falls
back to one-shot exec.  The dispatch condition of the persistent
single-session variant (line 209) tests strictly-unequal-to-true and sends
THAT case to executeCommandInShell, so the explicit values are inverted:
an explicit true takes the one-shot exec fallback and an explicit false
takes the persistent shell; only the omitted default lands on the
persistent shell. -/
theorem C8_flag_inverted :
    chooseExecPath (some true) = ExecPath.oneShotExec ∧
    chooseExecPath (some false) = ExecPath.persistentShell ∧
    chooseExecPath none = ExecPath.persistentShell := by
  decide

/-- Counterexample to claim C9 as stated.  The handler of
src/terminal_mcp.js has no try/catch: a request naming any operation other
than execute_command throws, and the exception (the error value here)
propagates out of the handler instead of becoming a textual response with
the error flag set. -/
theorem C9_counterexample :
    oldHandleToolCall "list_terminals" ⟨true, "", "", 0, none⟩ =
      Except.error "Unknown tool" := by
  rfl

/-- Claim C9, amended.  In src/terminal_mcp_new.js and in the persistent
single-session variant, every error thrown while handling a request —
including the unknown-operation default — is caught at the dispatch
boundary and converted into a textual response carrying the message with
the error flag set; in the legacy src/terminal_mcp.js, an unknown operation
name throws and the exception propagates out of the handler. -/
theorem C9_catch_boundary :
    (∀ msg : String,
      catchBoundary (Except.error msg) = ⟨"Error: " ++ msg, true⟩) ∧
    (∀ name : String,
      catchBoundary (unknownToolNew name) =
        ⟨"Error: " ++ ("Unknown tool: " ++ name), true⟩) ∧
    (∀ (name : String) (r : Outcome), name ≠ "execute_command" →
      oldHandleToolCall name r = Except.error "Unknown tool") := by
  refine ⟨fun _ => rfl, fun _ => rfl, fun name r h => ?_⟩
  simp [oldHandleToolCall, h]

/-- Witness for C9: at a concrete unknown operation name the legacy handler
propagates the exception. -/
theorem C9_catch_boundary_witness :
    ("bogus" : String) ≠ "execute_command" ∧
    oldHandleToolCall "bogus" ⟨false, "", "", 0, none⟩ =
      Except.error "Unknown tool" :=
  ⟨by decide,
   C9_catch_boundary.2.2 "bogus" ⟨false, "", "", 0, none⟩ (by decide)⟩

/-- Claim C10.  In the persistent single-session variant, an
execute_command dispatch that takes the persistent-shell path never invokes
the directory tracker — executeCommandInShell contains no call to
updateWorkingDirectory — so the tracked working directory is unchanged for
every command, including any cd command; the tracker runs exactly on the
one-shot exec fallback path. -/
theorem C10_persistent_path_frame :
    (∀ (home cwd : String) (v : Option Bool) (cmd : String), v ≠ some true →
      executeToolCwd home cwd v cmd = cwd) ∧
    (∀ (home cwd cmd : String),
      executeToolCwd home cwd (some true) cmd =
        updateWorkingDirectory home cwd cmd) := by
  constructor
  · intro home cwd v cmd hv
    simp [executeToolCwd, hv]
  · intro home cwd cmd
    simp [executeToolCwd]

/-- Witness for C10: a cd command executed down the persistent-shell path
leaves the tracked directory unchanged. -/
theorem C10_persistent_path_frame_witness :
    (some false : Option Bool) ≠ some true ∧
    executeToolCwd "/home/u" "/tmp" (some false) "cd /etc" = "/tmp" :=
  ⟨by decide,
   C10_persistent_path_frame.1 "/home/u" "/tmp" (some false) "cd /etc" (by decide)⟩
